import Mathlib

/-!
Verification of the Workiwi core (my-workiwi-project): the document-block
parser embedded in `saveToDocs` (client/src/App.tsx), the system-prompt
builder `buildSystemInstruction` (server/server.js), and the history
shaping described by the design document.

Strings are modelled as `List Char`; JavaScript string operations
(`split('\n')`, `trim`, `startsWith`, `includes`, `replace(/#/g,'')`,
`match(/^\d\./)`, `Array.prototype.join`) are embedded as executable
functions on character lists.
-/

namespace Workiwi

/-- Characters removed by JavaScript `String.prototype.trim`
(WhiteSpace and LineTerminator code points). -/
def isJsSpace (c : Char) : Bool :=
  c == ' ' || c == '\t' || c == '\n' || c == '\r' ||
  c == Char.ofNat 11 || c == Char.ofNat 12 ||
  c == Char.ofNat 0xA0 || c == Char.ofNat 0xFEFF ||
  c == Char.ofNat 0x1680 || (0x2000 ≤ c.toNat && c.toNat ≤ 0x200A) ||
  c == Char.ofNat 0x2028 || c == Char.ofNat 0x2029 ||
  c == Char.ofNat 0x202F || c == Char.ofNat 0x205F || c == Char.ofNat 0x3000

/-- JavaScript `line.trim()`: remove whitespace at both ends. -/
def trimChars (l : List Char) : List Char :=
  ((l.dropWhile isJsSpace).reverse.dropWhile isJsSpace).reverse

/-- JavaScript `text.split('\n')`.  On the empty string it returns one
empty field, and a trailing newline produces a trailing empty field. -/
def splitLines : List Char → List (List Char)
  | [] => [[]]
  | c :: rest =>
      if c = '\n' then [] :: splitLines rest
      else (c :: (splitLines rest).headD []) :: (splitLines rest).tail

/-- JavaScript `lines.join('\n')`: intercalate a newline. -/
def joinLines : List (List Char) → List Char
  | [] => []
  | [l] => l
  | l :: l₂ :: ls => l ++ '\n' :: joinLines (l₂ :: ls)

/-- JavaScript `s.startsWith(p)` on character lists (first argument is
the pattern). -/
def startsWithList : List Char → List Char → Bool
  | [], _ => true
  | _ :: _, [] => false
  | p :: ps, c :: cs => p == c && startsWithList ps cs

/-- JavaScript `s.includes(pat)`: `pat` occurs contiguously in `s`. -/
def containsSub (pat : List Char) (l : List Char) : Bool :=
  l.tails.any (fun t => startsWithList pat t)

/-- JavaScript `line.replace(/#/g, '')`: delete every `#` character. -/
def removeHash (l : List Char) : List Char :=
  l.filter (fun c => !(c == '#'))

/-- `line.match(/^\d\./)`: a single decimal digit followed by a period,
at the start of the line. -/
def digitDotStart : List Char → Bool
  | c :: p :: _ => c.isDigit && p == '.'
  | _ => false

/-- The block kinds of the client's `DocBlock` interface
(App.tsx, `type: 'heading' | 'paragraph' | 'code' | 'list'`). -/
inductive BlockType where
  | heading
  | paragraph
  | code
  | list
deriving DecidableEq, Repr

/-- One typed content block (client interface `DocBlock`). -/
structure DocBlock where
  type : BlockType
  content : List Char
deriving DecidableEq, Repr

/-- The literal substring `모드]` tested by the heading heuristic. -/
def modeTag : List Char := "모드]".data

/-- The heading condition of `saveToDocs` (App.tsx line 212):
`line.startsWith('#') || line.includes('모드]')`. -/
def headingTriggerB (line : List Char) : Bool :=
  startsWithList ['#'] line || containsSub modeTag line

/-- The list condition of `saveToDocs` (App.tsx line 213):
`line.startsWith('-') || line.match(/^\d\./)`. -/
def listTriggerB (line : List Char) : Bool :=
  startsWithList ['-'] line || digitDotStart line

/-- The per-line classifier of `saveToDocs` (App.tsx lines 211-215):
heading lines keep the line with every `#` removed and then trimmed;
list and paragraph lines keep the line unmodified. -/
def classifyLine (line : List Char) : DocBlock :=
  if headingTriggerB line then
    { type := .heading, content := trimChars (removeHash line) }
  else if listTriggerB line then
    { type := .list, content := line }
  else
    { type := .paragraph, content := line }

/-- Blank-line filter of `saveToDocs` (App.tsx line 210):
`line.trim() !== ''`. -/
def nonBlankB (l : List Char) : Bool :=
  !(trimChars l).isEmpty

/-- The document-block parser of `saveToDocs` (App.tsx lines 210-215):
`msg.text.split('\n').filter(line => line.trim() !== '').map(classify)`. -/
def parse (text : List Char) : List DocBlock :=
  ((splitLines text).filter nonBlankB).map classifyLine

/-- Document kinds (client interface `Document`, field `type`). -/
inductive DocType where
  | MEETING
  | SPEC
  | MEMO
  | TECH
deriving DecidableEq, Repr

/-- Client interface `DocContent`: a version string and ordered blocks. -/
structure DocContent where
  version : List Char
  blocks : List DocBlock
deriving DecidableEq, Repr

/-- Client interface `Document`. -/
structure Document where
  id : Nat
  title : List Char
  type : DocType
  date : List Char
  content : DocContent
deriving DecidableEq, Repr

/-- Client type `AgentType = 'PM' | 'DEV' | 'DESIGNER'`. -/
inductive AgentType where
  | PM
  | DEV
  | DESIGNER
deriving DecidableEq, Repr

/-- Client enum `sender: 'user' | 'ai'` of interface `Message`. -/
inductive MsgSender where
  | user
  | ai
deriving DecidableEq, Repr

/-- Client interface `Message` (timestamp abstracted to a number). -/
structure Message where
  id : Nat
  sender : MsgSender
  text : List Char
  agentType : Option AgentType
  timestamp : Nat
deriving DecidableEq, Repr

/-- JavaScript template interpolation of the optional `msg.agentType`:
`undefined` renders as the text `undefined`. -/
def renderAgentType : Option AgentType → List Char
  | none => "undefined".data
  | some .PM => "PM".data
  | some .DEV => "DEV".data
  | some .DESIGNER => "DESIGNER".data

/-- `saveToDocs` (App.tsx lines 209-231), restricted to the document it
constructs.  `docsLength` is `docs.length` at call time and `dateStr` is
`new Date().toLocaleDateString()`, both supplied by the environment. -/
def saveToDocs (docsLength : Nat) (msg : Message) (dateStr : List Char) : Document :=
  { id := docsLength + 1
  , title := "AI 대화 기록 (".data ++ renderAgentType msg.agentType
      ++ ") - ".data ++ dateStr
  , type := .MEMO
  , date := dateStr
  , content := { version := "1.0".data, blocks := parse msg.text } }

/-- The history window size the design document specifies as the
default bound (10). -/
def defaultWindowSize : Nat := 10

/-- The history the client sends with a chat request (App.tsx line 173,
`history: messages`): the raw, complete `messages` array, with no
windowing, no sender-to-role mapping and no metadata stripping. -/
def sentHistory (messages : List Message) : List Message :=
  messages

/-- The history the server hands to the generation backend (server.js
line 100, `history: history || []`): the request's history unchanged,
defaulting a missing value to the empty array. -/
def chatHistory (history : Option (List Message)) : List Message :=
  history.getD []

/-- An 11-turn conversation (ids 1 to 11, alternating user and ai
senders): one more turn than the design document's window of 10. -/
def failingTurns : List Message :=
  (List.range 11).map (fun i =>
    { id := i + 1
    , sender := if i % 2 = 0 then MsgSender.user else MsgSender.ai
    , text := "m".data
    , agentType := none
    , timestamp := i })

/-- The ruleset consumed by `buildSystemInstruction` (server.js), with
every field present: `{techStack, convention, tone, customInstructions}`. -/
structure Ruleset where
  techStack : List (List Char)
  convention : List Char
  tone : List Char
  customInstructions : List Char
deriving DecidableEq, Repr

/-- The apostrophe character quoted around the role in the template. -/
def quoteChar : Char := Char.ofNat 39

/-- JavaScript template interpolation of a possibly-undefined string:
`undefined` renders as the text `undefined`. -/
def renderJsStr : Option (List Char) → List Char
  | none => "undefined".data
  | some s => s

/-- Role directive for `case 'PM'` (server.js line 58). -/
def pmDirective : List Char :=
  "회의록 정리, 일정 산출, 기획 의도 파악에 집중하세요. 문서는 구조화된 포맷으로 제안하세요.".data

/-- Role directive for `case 'DEV'` (server.js line 61). -/
def devDirective : List Char :=
  "제공된 기술 스택 외의 라이브러리 사용을 지양하세요. 코드는 프로덕션 레벨로 작성하세요.".data

/-- Role directive for `case 'DESIGNER'` (server.js line 64). -/
def designerDirective : List Char :=
  "UI/UX 사용성을 최우선으로 고려하고, Tailwind CSS 클래스 기준으로 스타일을 제안하세요.".data

/-- Role directive for the `default` switch branch (server.js line 67). -/
def defaultDirective : List Char :=
  "프로젝트의 성공을 위해 성실히 답변하세요.".data

/-- The `switch (agentType)` of `buildSystemInstruction` (server.js
lines 56-68); strict string comparison, any other value (including
`undefined`) falls through to `default`. -/
def roleSpecificPrompt (agentType : Option (List Char)) : List Char :=
  if agentType = some "PM".data then pmDirective
  else if agentType = some "DEV".data then devDirective
  else if agentType = some "DESIGNER".data then designerDirective
  else defaultDirective

/-- Opening of the `basePrompt` template (server.js lines 38-40) up to
the first section label, with the interpolated, quoted role. -/
def introSeg (agentType : Option (List Char)) : List Char :=
  "\n    당신은 ".data ++ [quoteChar] ++ renderJsStr agentType ++ [quoteChar] ++
  " 역할을 맡은 AI 에이전트입니다.\n    다음 프로젝트 규칙(Ruleset)을 엄격히 준수하여 답변하세요.\n    \n    ".data

/-- Template text between a section body and the next section label. -/
def gapSeg : List Char := "\n    \n    ".data

/-- Template text after the last section body (server.js line 53). -/
def tailSeg : List Char := "\n  ".data

/-- Section label for the tech stack (server.js line 42). -/
def techLabel : List Char := "[기술 스택]\n    ".data

/-- Section label for the convention (server.js line 45). -/
def convLabel : List Char := "[코딩 컨벤션 및 규칙]\n    ".data

/-- Section label for the tone (server.js line 48). -/
def toneLabel : List Char := "[톤앤매너]\n    ".data

/-- Section label for the custom instructions (server.js line 51). -/
def customLabel : List Char := "[추가 지시사항]\n    ".data

/-- The `basePrompt` template literal of `buildSystemInstruction`
(server.js lines 38-53), with its exact text and indentation; the
tech-stack list is joined with `", "`. -/
def basePrompt (settings : Ruleset) (agentType : Option (List Char)) : List Char :=
  introSeg agentType ++
  techLabel ++ List.intercalate ", ".data settings.techStack ++
  gapSeg ++ convLabel ++ settings.convention ++
  gapSeg ++ toneLabel ++ settings.tone ++
  gapSeg ++ customLabel ++ settings.customInstructions ++
  tailSeg

/-- The separator and label before the role-specific directive
(server.js line 70). -/
def roleSectionLabel : List Char := "\n\n[역할별 지침]\n".data

/-- `buildSystemInstruction` (server.js lines 37-71): the base prompt,
the role section label, then the role-specific directive. -/
def buildSystemInstruction (settings : Ruleset) (agentType : Option (List Char)) : List Char :=
  basePrompt settings agentType ++ roleSectionLabel ++ roleSpecificPrompt agentType

/-- A ruleset as JavaScript receives it: any field may be missing
(`undefined`). -/
structure RulesetIn where
  techStack : Option (List (List Char))
  convention : Option (List Char)
  tone : Option (List Char)
  customInstructions : Option (List Char)
deriving DecidableEq, Repr

/-- JavaScript evaluation of `buildSystemInstruction` when ruleset
fields may be `undefined`: `settings.techStack.join(', ')` throws a
TypeError when `techStack` is `undefined` (result `none`); the template
interpolates a missing string field as the text `undefined`. -/
def buildSystemInstructionJS (s : RulesetIn) (agentType : Option (List Char)) :
    Option (List Char) :=
  match s.techStack with
  | none => none
  | some ts =>
      some (buildSystemInstruction
        { techStack := ts
        , convention := renderJsStr s.convention
        , tone := renderJsStr s.tone
        , customInstructions := renderJsStr s.customInstructions } agentType)

/-- The heading-content transformation as the design document words it:
strip the line-leading run of `#` characters, then trim.  (The source
instead deletes every `#` in the line; this definition exists to compare
the two.) -/
def specHeadingContent (line : List Char) : List Char :=
  trimChars (line.dropWhile (fun c => c == '#'))

/-! ### Helper lemmas -/

theorem splitLines_ne_nil (t : List Char) : splitLines t ≠ [] := by
  cases t with
  | nil => simp [splitLines]
  | cons c rest =>
      simp only [splitLines]
      split <;> simp

theorem mem_splitLines_no_nl :
    ∀ (t : List Char) (l : List Char), l ∈ splitLines t → '\n' ∉ l := by
  intro t
  induction t with
  | nil =>
      intro l hl
      simp [splitLines] at hl
      simp [hl]
  | cons c rest ih =>
      intro l hl
      by_cases hc : c = '\n'
      · rw [splitLines, if_pos hc] at hl
        rcases List.mem_cons.mp hl with h | h
        · simp [h]
        · exact ih l h
      · rw [splitLines, if_neg hc] at hl
        cases hsr : splitLines rest with
        | nil => exact absurd hsr (splitLines_ne_nil rest)
        | cons a tl =>
            rw [hsr] at hl
            rcases List.mem_cons.mp hl with h | h
            · subst h
              intro hmem
              rcases List.mem_cons.mp hmem with h₁ | h₁
              · exact hc h₁.symm
              · exact ih a (by simp [hsr]) h₁
            · exact ih l (by rw [hsr]; exact List.mem_cons_of_mem a (by simpa using h))

theorem splitLines_of_no_nl (l : List Char) (h : '\n' ∉ l) : splitLines l = [l] := by
  induction l with
  | nil => rfl
  | cons c rest ih =>
      have hc : ¬(c = '\n') := fun e => h (by simp [e])
      have hr : '\n' ∉ rest := fun hm => h (List.mem_cons_of_mem _ hm)
      rw [splitLines, if_neg hc, ih hr]
      rfl

theorem splitLines_append_nl (l rest : List Char) (h : '\n' ∉ l) :
    splitLines (l ++ '\n' :: rest) = l :: splitLines rest := by
  induction l with
  | nil => simp [splitLines]
  | cons c l₂ ih =>
      have hc : ¬(c = '\n') := fun e => h (by simp [e])
      have hl : '\n' ∉ l₂ := fun hm => h (List.mem_cons_of_mem _ hm)
      rw [List.cons_append, splitLines, if_neg hc, ih hl]
      rfl

theorem splitLines_joinLines :
    ∀ (ls : List (List Char)), ls ≠ [] → (∀ l ∈ ls, '\n' ∉ l) →
      splitLines (joinLines ls) = ls := by
  intro ls
  induction ls with
  | nil => intro h; exact absurd rfl h
  | cons l tail ih =>
      intro _ hno
      cases tail with
      | nil =>
          rw [joinLines]
          exact splitLines_of_no_nl l (hno l (by simp))
      | cons l₂ ls₂ =>
          have h₁ : '\n' ∉ l := hno l (by simp)
          have h₂ : ∀ x ∈ l₂ :: ls₂, '\n' ∉ x := fun x hx =>
            hno x (List.mem_cons_of_mem _ hx)
          rw [joinLines, splitLines_append_nl _ _ h₁, ih (by simp) h₂]

theorem classifyLine_of_headingTrigger (l : List Char) (h : headingTriggerB l = true) :
    classifyLine l = { type := .heading, content := trimChars (removeHash l) } := by
  simp [classifyLine, h]

theorem classifyLine_content_of_not_heading (l : List Char)
    (h : (classifyLine l).type ≠ BlockType.heading) : (classifyLine l).content = l := by
  by_cases hb : headingTriggerB l = true
  · exact absurd (by simp [classifyLine, hb]) h
  · by_cases hl : listTriggerB l = true <;> simp [classifyLine, hb, hl]

theorem classifyLine_type_cases (l : List Char) :
    (classifyLine l).type = BlockType.heading ∨ (classifyLine l).type = BlockType.list ∨
      (classifyLine l).type = BlockType.paragraph := by
  by_cases hb : headingTriggerB l = true
  · simp [classifyLine, hb]
  · by_cases hl : listTriggerB l = true <;> simp [classifyLine, hb, hl]

/-! ### Claim theorems -/

/-- Claim C4, as stated, is false: re-parsing the newline-joined
contents of the blocks produced from `"# Title"` does not reproduce the
block sequence — the heading block `⟨heading, "Title"⟩` comes back as
`⟨paragraph, "Title"⟩`, because the stored heading content has lost its
`#` marker. -/
theorem claim_C4_counterexample :
    parse (joinLines ((parse "# Title".data).map DocBlock.content)) ≠
      parse "# Title".data := by decide

/-- Claim C4 (amended): for every document produced by the parser in
which no block is a heading, re-parsing the concatenation of the
blocks' content fields joined by newline reproduces the identical block
sequence (same kinds and contents, in the same order). -/
theorem claim_C4_amended (t : List Char)
    (h : ∀ b ∈ parse t, b.type ≠ BlockType.heading) :
    parse (joinLines ((parse t).map DocBlock.content)) = parse t := by
  have hparse : parse t = ((splitLines t).filter nonBlankB).map classifyLine := rfl
  have hcontent : ∀ l ∈ (splitLines t).filter nonBlankB, (classifyLine l).content = l := by
    intro l hml
    exact classifyLine_content_of_not_heading l
      (h _ (by rw [hparse]; exact List.mem_map_of_mem _ hml))
  have hmap : (parse t).map DocBlock.content = (splitLines t).filter nonBlankB := by
    rw [hparse, List.map_map]
    calc ((splitLines t).filter nonBlankB).map (DocBlock.content ∘ classifyLine)
        = ((splitLines t).filter nonBlankB).map id :=
          List.map_congr_left (fun a ha => hcontent a ha)
      _ = (splitLines t).filter nonBlankB := List.map_id _
  rw [hmap]
  by_cases hnil : (splitLines t).filter nonBlankB = []
  · rw [hnil]
    have h₁ : parse (joinLines []) = [] := by decide
    rw [h₁, hparse, hnil]
    rfl
  · have hnonl : ∀ l ∈ (splitLines t).filter nonBlankB, '\n' ∉ l := fun l hml =>
      mem_splitLines_no_nl t l (List.mem_of_mem_filter hml)
    have hblank : ∀ l ∈ (splitLines t).filter nonBlankB, nonBlankB l = true := fun l hml =>
      List.of_mem_filter hml
    show ((splitLines (joinLines ((splitLines t).filter nonBlankB))).filter
      nonBlankB).map classifyLine = parse t
    rw [splitLines_joinLines _ hnil hnonl, List.filter_eq_self.mpr hblank, hparse]

/-- Witness for the amended C4 at the concrete text `"hello\n- item"`,
whose parse has no heading block. -/
theorem claim_C4_witness :
    parse (joinLines ((parse "hello\n- item".data).map DocBlock.content)) =
      parse "hello\n- item".data :=
  claim_C4_amended "hello\n- item".data (by decide)

/-- Claim C5, as stated, is false: for the heading line `"# A # B"` the
parser's content is the line with EVERY `#` removed and then trimmed
(`"A  B"`), not the line with only the line-leading `#` run stripped and
trimmed (`"A # B"`). -/
theorem claim_C5_counterexample :
    (classifyLine "# A # B".data).content ≠ specHeadingContent "# A # B".data := by
  decide

/-- Claim C5 (amended): for every line classified as heading, the
block's content equals the line with every `#` character removed
(wherever it occurs) and then trimmed; and a line consisting only of a
heading marker yields a heading block with empty content rather than
being dropped. -/
theorem claim_C5_amended :
    (∀ line : List Char, headingTriggerB line = true →
        (classifyLine line).content = trimChars (removeHash line)) ∧
    parse "#".data = [{ type := BlockType.heading, content := [] }] := by
  refine ⟨fun line h => ?_, by decide⟩
  rw [classifyLine_of_headingTrigger line h]

/-- Witness for the amended C5 at the concrete heading line
`"# A # B"`. -/
theorem claim_C5_witness :
    (classifyLine "# A # B".data).content = trimChars (removeHash "# A # B".data) :=
  claim_C5_amended.1 "# A # B".data (by decide)

/-- Claim C7: classification is first-match-wins with heading tested
before list before paragraph — every line matching both the heading
trigger and the list trigger is classified heading — and the four-line
example parses to heading, paragraph, list, list with list and
paragraph contents unmodified. -/
theorem claim_C7 :
    (∀ line : List Char, headingTriggerB line = true → listTriggerB line = true →
        (classifyLine line).type = BlockType.heading) ∧
    parse "# Title\nSome text\n- item one\n1. item two".data =
      [ { type := BlockType.heading, content := "Title".data }
      , { type := BlockType.paragraph, content := "Some text".data }
      , { type := BlockType.list, content := "- item one".data }
      , { type := BlockType.list, content := "1. item two".data } ] := by
  refine ⟨fun line h _ => ?_, by decide⟩
  rw [classifyLine_of_headingTrigger line h]

/-- Witness for C7's precedence clause: the line `"- 모드]"` matches
both the heading trigger and the list trigger and is classified
heading. -/
theorem claim_C7_witness :
    (classifyLine "- 모드]".data).type = BlockType.heading :=
  claim_C7.1 "- 모드]".data (by decide) (by decide)

/-- Claim C8: the parser emits exactly one block per line that is
non-empty after trimming, in the original line order (a one-to-one,
order-preserving correspondence between surviving lines and blocks),
and the empty string and whitespace-only text parse to the empty
sequence. -/
theorem claim_C8 :
    (∀ t : List Char,
        (parse t).length = ((splitLines t).filter nonBlankB).length ∧
        List.Forall₂ (fun l b => b = classifyLine l)
          ((splitLines t).filter nonBlankB) (parse t)) ∧
    parse "".data = [] ∧ parse "   \n\n".data = [] := by
  refine ⟨fun t => ⟨by simp [parse], ?_⟩, by decide, by decide⟩
  show List.Forall₂ _ _ (((splitLines t).filter nonBlankB).map classifyLine)
  induction (splitLines t).filter nonBlankB with
  | nil => exact List.Forall₂.nil
  | cons a l ih => exact List.Forall₂.cons rfl ih

/-- Claim C9: no block emitted by the parser has kind `code`; every
emitted block's kind is one of heading, list, or paragraph. -/
theorem claim_C9 (t : List Char) (b : DocBlock) (hb : b ∈ parse t) :
    b.type ≠ BlockType.code ∧
    (b.type = BlockType.heading ∨ b.type = BlockType.list ∨
      b.type = BlockType.paragraph) := by
  have hb' : b ∈ ((splitLines t).filter nonBlankB).map classifyLine := hb
  rcases List.mem_map.mp hb' with ⟨l, _, rfl⟩
  refine ⟨?_, classifyLine_type_cases l⟩
  rcases classifyLine_type_cases l with h | h | h <;> simp [h]

/-- Witness for C9 at the block produced from the one-line text
`"hi"`. -/
theorem claim_C9_witness :
    ({ type := BlockType.paragraph, content := "hi".data } : DocBlock).type ≠
        BlockType.code ∧
      (({ type := BlockType.paragraph, content := "hi".data } : DocBlock).type =
          BlockType.heading ∨
        ({ type := BlockType.paragraph, content := "hi".data } : DocBlock).type =
          BlockType.list ∨
        ({ type := BlockType.paragraph, content := "hi".data } : DocBlock).type =
          BlockType.paragraph) :=
  claim_C9 "hi".data { type := BlockType.paragraph, content := "hi".data } (by decide)

/-- Claim C10: every document created by `saveToDocs` has document type
`MEMO` and content version `"1.0"`, for every message (text, sender,
role) and every date string — the message content never influences the
document's type or version. -/
theorem claim_C10 (docsLength : Nat) (msg : Message) (dateStr : List Char) :
    (saveToDocs docsLength msg dateStr).type = DocType.MEMO ∧
    (saveToDocs docsLength msg dateStr).content.version = "1.0".data :=
  ⟨rfl, rfl⟩

/-- Claim C1 describes the design document's intent, but the code
violates it: evaluating the repository's history flow at an 11-turn
conversation, the client sends the raw `messages` array (App.tsx line
173) and the server forwards `history || []` unchanged (server.js line
100), so all 11 entries — one more than the claimed window of 10 —
reach the backend, still as full Message records (sender values
`user`/`ai` with id, agentType and timestamp) rather than windowed,
role-mapped, text-only entries. -/
theorem claim_C1 :
    chatHistory (some (sentHistory failingTurns)) = failingTurns ∧
    (chatHistory (some (sentHistory failingTurns))).length = 11 ∧
    ¬(chatHistory (some (sentHistory failingTurns))).length ≤ defaultWindowSize := by
  refine ⟨rfl, ?_, ?_⟩ <;> decide

/-- Claim C2, as stated, is false: with `techStack` missing the
JavaScript evaluation of `buildSystemInstruction` throws a TypeError at
`settings.techStack.join(', ')` (modelled as `none`), so no instruction
string is returned — the missing field is not treated as the empty
string. -/
theorem claim_C2_counterexample :
    buildSystemInstructionJS
      { techStack := none, convention := some [], tone := some []
      , customInstructions := some [] } (some "PM".data) = none := rfl

/-- Claim C2 (amended): `buildSystemInstruction` returns a well-defined
instruction string, with no error, whenever every ruleset field is
present — empty fields (empty list, empty strings) included, and they
are embedded as-is; when the string fields are missing they are
interpolated as the literal text `undefined` rather than the empty
string; but a missing `techStack` throws a TypeError. -/
theorem claim_C2_amended :
    (∀ (ts : List (List Char)) (conv ton ci : List Char) (a : Option (List Char)),
        buildSystemInstructionJS
          { techStack := some ts, convention := some conv, tone := some ton
          , customInstructions := some ci } a =
          some (buildSystemInstruction
            { techStack := ts, convention := conv, tone := ton
            , customInstructions := ci } a)) ∧
    (∀ (ts : List (List Char)) (a : Option (List Char)),
        buildSystemInstructionJS
          { techStack := some ts, convention := none, tone := none
          , customInstructions := none } a =
          some (buildSystemInstruction
            { techStack := ts, convention := "undefined".data
            , tone := "undefined".data
            , customInstructions := "undefined".data } a)) ∧
    (∀ (conv ton ci : Option (List Char)) (a : Option (List Char)),
        buildSystemInstructionJS
          { techStack := none, convention := conv, tone := ton
          , customInstructions := ci } a = none) :=
  ⟨fun _ _ _ _ _ => rfl, fun _ _ => rfl, fun _ _ _ _ => rfl⟩

/-- Claim C3: for every ruleset and every role value, the instruction
string contains, as verbatim substrings, the tech stack joined by
`", "`, the convention, the tone, and the custom instructions, each
directly under its fixed labelled section. -/
theorem claim_C3 (R : Ruleset) (A : Option (List Char)) :
    (techLabel ++ List.intercalate ", ".data R.techStack) <:+:
        buildSystemInstruction R A ∧
    (convLabel ++ R.convention) <:+: buildSystemInstruction R A ∧
    (toneLabel ++ R.tone) <:+: buildSystemInstruction R A ∧
    (customLabel ++ R.customInstructions) <:+: buildSystemInstruction R A := by
  refine ⟨⟨introSeg A, ?_, ?_⟩, ⟨introSeg A ++ techLabel ++
      List.intercalate ", ".data R.techStack ++ gapSeg, ?_, ?_⟩,
    ⟨introSeg A ++ techLabel ++ List.intercalate ", ".data R.techStack ++
      gapSeg ++ convLabel ++ R.convention ++ gapSeg, ?_, ?_⟩,
    ⟨introSeg A ++ techLabel ++ List.intercalate ", ".data R.techStack ++
      gapSeg ++ convLabel ++ R.convention ++ gapSeg ++ toneLabel ++ R.tone ++
      gapSeg, ?_, ?_⟩⟩
  case _ => exact gapSeg ++ convLabel ++ R.convention ++ gapSeg ++ toneLabel ++
    R.tone ++ gapSeg ++ customLabel ++ R.customInstructions ++ tailSeg ++
    roleSectionLabel ++ roleSpecificPrompt A
  case _ => simp [buildSystemInstruction, basePrompt, List.append_assoc]
  case _ => exact gapSeg ++ toneLabel ++ R.tone ++ gapSeg ++ customLabel ++
    R.customInstructions ++ tailSeg ++ roleSectionLabel ++ roleSpecificPrompt A
  case _ => simp [buildSystemInstruction, basePrompt, List.append_assoc]
  case _ => exact gapSeg ++ customLabel ++ R.customInstructions ++ tailSeg ++
    roleSectionLabel ++ roleSpecificPrompt A
  case _ => simp [buildSystemInstruction, basePrompt, List.append_assoc]
  case _ => exact tailSeg ++ roleSectionLabel ++ roleSpecificPrompt A
  case _ => simp [buildSystemInstruction, basePrompt, List.append_assoc]

/-- Claim C6: the role-directive selection is total over
`{PM, DEV, DESIGNER, default}` — for every role value outside
`{PM, DEV, DESIGNER}` (including a missing role, `none`) the
role-specific section of the output equals the default directive, and a
result is always produced. -/
theorem claim_C6 (R : Ruleset) (A : Option (List Char))
    (h₁ : A ≠ some "PM".data) (h₂ : A ≠ some "DEV".data)
    (h₃ : A ≠ some "DESIGNER".data) :
    roleSpecificPrompt A = defaultDirective ∧
    buildSystemInstruction R A =
      basePrompt R A ++ roleSectionLabel ++ defaultDirective := by
  have hd : roleSpecificPrompt A = defaultDirective := by
    simp [roleSpecificPrompt, h₁, h₂, h₃]
  exact ⟨hd, by simp only [buildSystemInstruction, hd, List.append_assoc]⟩

/-- Witness for C6 at the unrecognized role `"QA"` and an empty
ruleset. -/
theorem claim_C6_witness :
    roleSpecificPrompt (some "QA".data) = defaultDirective ∧
    buildSystemInstruction ⟨[], [], [], []⟩ (some "QA".data) =
      basePrompt ⟨[], [], [], []⟩ (some "QA".data) ++
        roleSectionLabel ++ defaultDirective :=
  claim_C6 ⟨[], [], [], []⟩ (some "QA".data) (by decide) (by decide) (by decide)

end Workiwi
